import Mathlib

/-!
Verification development for the LoRA dashboard client (Angular/TypeScript).

The definitions below are a shallow embedding of the dashboard's core logic:

* the structured frontend logger
  (`src/app/core/frontend-logger.service.ts`): payload sanitization,
  the bounded in-memory log sequence, request correlation, and the
  multi-step file-delivery fallback chain;
* the protocol-adapter pieces of `src/app/core/api.service.ts`: header
  construction, the RunPod queue-envelope requests, and the
  list-jobs response normalization;
* the processes-tab component (`processes-tab.component.ts`):
  `downloadResults` and `downloadAllFiles`;
* the base64 decode path of `triggerFileDownload` (browser `atob`)
  together with the standard base64 encoder (browser `btoa`).

JavaScript data is modelled by the JSON value type `JVal`; machine
integers are `Nat`/`Int`; browser/DOM effects (network, timers, alerts)
are reified as explicit result values; `Math.random` is an explicit
oracle argument; mutable arrays, where aliasing matters, are modelled by
an explicit store of arrays addressed by references.
-/

/-! ## JavaScript string helpers

`String.prototype.includes` and `String.prototype.toLowerCase` (for the
ASCII range, which is all the logger's key names use), modelled as
executable functions on character lists. -/

/-- ASCII lowercasing of one character, as `toLowerCase` acts on the
ASCII range. -/
def lowerChar (c : Char) : Char :=
  if 'A' ≤ c ∧ c ≤ 'Z' then Char.ofNat (c.toNat + 32) else c

/-- Whether the first list is a prefix of the second (Boolean). -/
def charsPrefixOf : List Char → List Char → Bool
  | [], _ => true
  | _ :: _, [] => false
  | a :: as, b :: bs => a == b && charsPrefixOf as bs

/-- Whether `pat` occurs contiguously inside the second list. -/
def charsContain (pat : List Char) : List Char → Bool
  | [] => charsPrefixOf pat []
  | c :: cs => charsPrefixOf pat (c :: cs) || charsContain pat cs

/-- JavaScript `s.includes(pat)`. -/
def strIncludes (s pat : String) : Bool :=
  charsContain pat.toList s.toList

/-- JavaScript `s.toLowerCase()` restricted to ASCII letters. -/
def lowerStr (s : String) : String := String.mk (s.toList.map lowerChar)

/-! ## JSON values -/

/-- JSON values, the data sanitized and logged by the frontend logger.
JavaScript `undefined` and `null` are identified as `JVal.null`. -/
inductive JVal where
  | null
  | str (s : String)
  | num (n : Int)
  | bool (b : Bool)
  | obj (fields : List (String × JVal))
  | arr (items : List JVal)

/-- JavaScript truthiness of a JSON value (`!v` is `!truthy v`). -/
def truthy : JVal → Bool
  | .null => false
  | .str s => s ≠ ""
  | .num n => n ≠ 0
  | .bool b => b
  | .obj _ => true
  | .arr _ => true

/-- First field with the given name in an object's field list
(JavaScript object keys are unique, lookup takes the first). -/
def lookupField : List (String × JVal) → String → Option JVal
  | [], _ => none
  | (k, v) :: rest, name => if k = name then some v else lookupField rest name

/-- JavaScript property access `v[name]`; accessing a field of a
non-object yields `undefined`, modelled as `none`. -/
def getField : JVal → String → Option JVal
  | .obj fs, name => lookupField fs name
  | _, _ => none

/-- Property access with `undefined` collapsed into `JVal.null`. -/
def getFieldJS (v : JVal) (name : String) : JVal :=
  (getField v name).getD JVal.null

/-- JavaScript `a || b` on JSON values. -/
def jsOr (a b : JVal) : JVal := if truthy a then a else b

/-- JavaScript strict equality of a value against a string literal. -/
def strictEqStr : JVal → String → Bool
  | .str s, t => s == t
  | _, _ => false

/-! ## Logger: payload sanitization

`frontend-logger.service.ts`, `sanitizeData` (lines 268-294): the
`JSON.stringify` replacer walks every key at every depth and replaces
the value of any key whose lowercased name includes one of the terms
`password`, `token`, `key`, `secret` by the marker `***HIDDEN***`.
Array indices act as the numeric keys `"0"`, `"1"`, ..., which never
match a sensitive term, so array elements are recursed into unchanged.
The data-truncation branch is disabled (`truncateData = false`). -/

/-- The sensitive-key test of the `sanitizeData` replacer:
`key.toLowerCase().includes('password' | 'token' | 'key' | 'secret')`.
Note the source checks exactly these four terms. -/
def isSensitiveKey (k : String) : Bool :=
  strIncludes (lowerStr k) "password" || strIncludes (lowerStr k) "token" ||
    strIncludes (lowerStr k) "key" || strIncludes (lowerStr k) "secret"

/-- The redaction marker the replacer substitutes for sensitive values. -/
def hiddenMarker : JVal := JVal.str "***HIDDEN***"

mutual
/-- Recursive sanitization of a JSON value, the effect of
`JSON.parse(JSON.stringify(data, replacer))` with the source's replacer:
a sensitive key's value is replaced wholesale (no recursion into it),
other values are walked recursively. -/
def sanitizeVal : JVal → JVal
  | .obj fs => .obj (sanitizeFields fs)
  | .arr xs => .arr (sanitizeItems xs)
  | v => v
termination_by structural v => v
/-- Sanitization of an object's field list. -/
def sanitizeFields : List (String × JVal) → List (String × JVal)
  | [] => []
  | (k, v) :: rest =>
      (k, if isSensitiveKey k then hiddenMarker else sanitizeVal v) :: sanitizeFields rest
termination_by structural fs => fs
/-- Sanitization of an array's elements. -/
def sanitizeItems : List JVal → List JVal
  | [] => []
  | v :: rest => sanitizeVal v :: sanitizeItems rest
termination_by structural xs => xs
end

/-- `sanitizeData` itself: falsy data is returned unchanged, otherwise
the recursive walk runs.  (The `catch` branch for unserializable data
concerns values outside the JSON fragment, e.g. circular references,
which `JVal` cannot express.) -/
def sanitizeData (d : JVal) : JVal :=
  if truthy d then sanitizeVal d else d

mutual
/-- Specification predicate: every field whose key is sensitive holds
exactly the redaction marker, recursively. -/
def hiddenOKv : JVal → Bool
  | .obj fs => hiddenOKf fs
  | .arr xs => hiddenOKi xs
  | _ => true
termination_by structural v => v
/-- `hiddenOKv` on an object's field list. -/
def hiddenOKf : List (String × JVal) → Bool
  | [] => true
  | (k, v) :: rest =>
      (if isSensitiveKey k then
        match v with
        | .str s => s = "***HIDDEN***"
        | _ => false
      else hiddenOKv v) && hiddenOKf rest
termination_by structural fs => fs
/-- `hiddenOKv` on an array's elements. -/
def hiddenOKi : List JVal → Bool
  | [] => true
  | v :: rest => hiddenOKv v && hiddenOKi rest
termination_by structural xs => xs
end

mutual
/-- All leaf values (non-object, non-array) of a JSON value. -/
def leavesV : JVal → List JVal
  | .obj fs => leavesF fs
  | .arr xs => leavesI xs
  | v => [v]
termination_by structural v => v
/-- Leaves of an object's field list. -/
def leavesF : List (String × JVal) → List JVal
  | [] => []
  | (_, v) :: rest => leavesV v ++ leavesF rest
termination_by structural fs => fs
/-- Leaves of an array's elements. -/
def leavesI : List JVal → List JVal
  | [] => []
  | v :: rest => leavesV v ++ leavesI rest
termination_by structural xs => xs
end

mutual
/-- The JSON value with every sensitive-keyed field dropped entirely,
recursively: the part of the input a reader of the sanitized log could
at most have learnt from. -/
def eraseSensV : JVal → JVal
  | .obj fs => .obj (eraseSensF fs)
  | .arr xs => .arr (eraseSensI xs)
  | v => v
termination_by structural v => v
/-- `eraseSensV` on an object's field list. -/
def eraseSensF : List (String × JVal) → List (String × JVal)
  | [] => []
  | (k, v) :: rest =>
      if isSensitiveKey k then eraseSensF rest else (k, eraseSensV v) :: eraseSensF rest
termination_by structural fs => fs
/-- `eraseSensV` on an array's elements. -/
def eraseSensI : List JVal → List JVal
  | [] => []
  | v :: rest => eraseSensV v :: eraseSensI rest
termination_by structural xs => xs
end

/-! ## Logger: state, bounded append, correlation

`frontend-logger.service.ts`: `LogEntry`, `addLog` (lines 250-266),
`logRequest` (36-60), `getLogs` (150-152), `getLogsByRequestId`
(157-159), `setMaxLogs` (517-525).  The localStorage mirror and the
rotated text buffer are effects outside the in-memory sequence the
claims quantify over and are not modelled. -/

/-- The `type` discriminator of a log entry. -/
inductive LogType where
  | REQUEST
  | RESPONSE
  | ERROR
  | FILE_OPERATION
deriving DecidableEq

/-- The `level` of a log entry. -/
inductive LogLevel where
  | INFO
  | WARN
  | ERROR
deriving DecidableEq

/-- One entry of the in-memory log sequence (`LogEntry` interface).
Optional fields are `Option`; absent is `none`. -/
structure LogEntry where
  timestamp : String
  type : LogType
  level : LogLevel
  requestId : Option String := none
  endpoint : Option String := none
  method : Option String := none
  data : Option JVal := none
  error : Option JVal := none
  duration : Option Nat := none

/-- The logger's mutable fields relevant to the claims: the entry
sequence and the configured bound (`maxLogs`, default 5000). -/
structure LoggerState where
  logs : List LogEntry
  maxLogs : Nat

/-- The last `n` elements of a list. -/
def lastN {α : Type} (l : List α) (n : Nat) : List α :=
  (l.reverse.take n).reverse

/-- JavaScript `l.slice(-max)`.  For `max = 0` the argument `-0`
equals `0` and `slice(0)` returns the whole array; otherwise the last
`max` elements are kept. -/
def jsSliceLast {α : Type} (l : List α) (max : Nat) : List α :=
  if max = 0 then l else lastN l max

/-- `addLog`: push the entry, then if the length exceeds `maxLogs`
reassign `this.logs = this.logs.slice(-this.maxLogs)`. -/
def addLog (s : LoggerState) (e : LogEntry) : LoggerState :=
  let pushed := s.logs ++ [e]
  let bounded := if pushed.length > s.maxLogs then jsSliceLast pushed s.maxLogs else pushed
  { s with logs := bounded }

/-- A sequence of `addLog` calls, oldest first. -/
def addLogs (s : LoggerState) (es : List LogEntry) : LoggerState :=
  es.foldl addLog s

/-- `setMaxLogs`: store the new bound, then trim with
`this.logs.slice(-this.maxLogs)` if the current sequence exceeds it. -/
def setMaxLogs (s : LoggerState) (max : Nat) : LoggerState :=
  let s1 : LoggerState := { s with maxLogs := max }
  if s1.logs.length > s1.maxLogs then
    { s1 with logs := jsSliceLast s1.logs s1.maxLogs }
  else s1

/-- JavaScript `a || b` on strings (empty string is falsy). -/
def jsOrStr (a b : String) : String := if a = "" then b else a

/-- `logRequest(endpoint, method, data, requestId?)`.  The wall clock
and `Math.random().toString(36).substr(2, 8)` are the explicit
arguments `now` and `randId`; a supplied empty id is falsy and is
replaced by the generated one, as `requestId || generateRequestId()`
does.  Returns the id together with the new state. -/
def logRequest (s : LoggerState) (now endpoint method : String) (data : JVal)
    (suppliedId : Option String) (randId : String) : String × LoggerState :=
  let id := jsOrStr (suppliedId.getD "") randId
  let e : LogEntry :=
    { timestamp := now, type := .REQUEST, level := .INFO, requestId := some id,
      endpoint := some endpoint, method := some method, data := some (sanitizeData data) }
  (id, addLog s e)

/-- `getLogsByRequestId`: filter by strict equality of `requestId`. -/
def getLogsByRequestId (s : LoggerState) (requestId : String) : List LogEntry :=
  s.logs.filter (fun l => l.requestId == some requestId)

/-! ## Logger: array aliasing model for `getLogs`

`getLogs` (lines 150-152) returns `[...this.logs]`, a fresh copy, and
`addLog` either pushes into the held array or reassigns `this.logs` to
the fresh array produced by `slice`.  To state that the returned array
does not alias the internal one, arrays live in an explicit store and
are addressed by natural-number references. -/

/-- A store of log-entry arrays; a reference is an index into it. -/
structure LogStore where
  arrays : List (List LogEntry)

/-- Contents of the array a reference points to. -/
def readArr (st : LogStore) (r : Nat) : List LogEntry :=
  st.arrays.getD r []

/-- In-place mutation of the array a reference points to. -/
def writeArr (st : LogStore) (r : Nat) (v : List LogEntry) : LogStore :=
  ⟨st.arrays.set r v⟩

/-- Allocation of a fresh array with the given contents. -/
def allocArr (st : LogStore) (v : List LogEntry) : Nat × LogStore :=
  (st.arrays.length, ⟨st.arrays ++ [v]⟩)

/-- The logger object under the store model: a reference to the entry
array plus the bound. -/
structure LoggerRef where
  logsRef : Nat
  maxLogs : Nat

/-- `getLogs()` under the store model: `[...this.logs]` allocates a
fresh array holding a copy of the entries and returns its reference;
the logger's own reference and array are untouched. -/
def getLogsST (lg : LoggerRef) (st : LogStore) : Nat × LogStore :=
  allocArr st (readArr st lg.logsRef)

/-- `addLog` under the store model: `push` mutates the held array in
place; the trimming branch allocates the fresh array `slice` returns
and re-points `this.logs` at it. -/
def addLogST (lg : LoggerRef) (st : LogStore) (e : LogEntry) : LoggerRef × LogStore :=
  let pushed := readArr st lg.logsRef ++ [e]
  let st1 := writeArr st lg.logsRef pushed
  if pushed.length > lg.maxLogs then
    let alloc := allocArr st1 (jsSliceLast pushed lg.maxLogs)
    ({ lg with logsRef := alloc.1 }, alloc.2)
  else (lg, st1)

/-! ## Protocol adapter: headers and requests

`api.service.ts`: `getHeaders` (lines 39-56), the queue-protocol
(RunPod) branches that build their headers inline (e.g. `getProcesses`
lines 209-212, `getHealth` lines 93-95), and `getDownloadUrl` (lines
449-487).  Tokens are strings; an absent token is the empty string,
which is exactly what JavaScript truthiness tests in the source. -/

/-- A network request the adapter issues. -/
inductive NetRequest where
  | post (url : String) (headers : List (String × String)) (body : JVal)
  | get (url : String) (headers : List (String × String))

/-- Protocol selection: `this.baseUrl.includes('api.runpod.ai')`. -/
def isRunPodEndpoint (baseUrl : String) : Bool :=
  strIncludes baseUrl "api.runpod.ai"

/-- `getHeaders()`: `Content-Type` always; `Authorization: Bearer <t>`
only if the auth token is truthy; `X-RunPod-Token` only if the
environment's RunPod token is truthy. -/
def getHeaders (token runpodToken : String) : List (String × String) :=
  [("Content-Type", "application/json")]
    ++ (if token ≠ "" then [("Authorization", "Bearer " ++ token)] else [])
    ++ (if runpodToken ≠ "" then [("X-RunPod-Token", runpodToken)] else [])

/-- The headers every queue-protocol `/runsync` (and `/run`) branch
builds inline, unconditionally:
`{'Content-Type': 'application/json', 'Authorization': `Bearer ${environment.runpodToken}`}`. -/
def runsyncHeaders (runpodToken : String) : List (String × String) :=
  [("Content-Type", "application/json"), ("Authorization", "Bearer " ++ runpodToken)]

/-- The headers of the queue-protocol native liveness probe
(`getHealth`, lines 93-95), also unconditional:
`{'Authorization': `Bearer ${environment.runpodToken}`}`. -/
def nativeHealthHeaders (runpodToken : String) : List (String × String) :=
  [("Authorization", "Bearer " ++ runpodToken)]

/-- The queue envelope `{input: {type: 'download', process_id: id}}`. -/
def downloadEnvelope (id : String) : JVal :=
  JVal.obj [("input", JVal.obj [("type", JVal.str "download"), ("process_id", JVal.str id)])]

/-- The one network request `getDownloadUrl(id)` issues (lines
449-487): a POST of the `download` envelope to `{base}/runsync` on the
queue protocol, otherwise a GET of `{base}/download/{id}` with
`this.getHeaders()`.  The body of `getDownloadUrl` contains no
job-status check of any kind. -/
def getDownloadUrlRequest (baseUrl runpodToken token id : String) : NetRequest :=
  if isRunPodEndpoint baseUrl then
    .post (baseUrl ++ "/runsync") (runsyncHeaders runpodToken) (downloadEnvelope id)
  else
    .get (baseUrl ++ "/download/" ++ id) (getHeaders token runpodToken)

/-- The fields of a `Process` this development needs. -/
structure Process where
  id : String
  name : String
  status : String
  ptype : String
  progress : Nat

/-- `downloadResults(process)` (processes-tab component, lines
148-163), synchronous phase: on `status !== 'completed'` it returns
immediately — no request is issued and no error or notification of any
kind is raised; otherwise it invokes `getDownloadUrl(process.id)`,
which issues its request.  The first component lists the requests
issued, the second the error message surfaced synchronously (always
`none`: the early return is silent). -/
def downloadResults (baseUrl runpodToken token : String) (p : Process) :
    List NetRequest × Option String :=
  if p.status ≠ "completed" then ([], none)
  else ([getDownloadUrlRequest baseUrl runpodToken token p.id], none)

/-! ## Protocol adapter: list-jobs normalization

`getProcesses`, queue-protocol branch (lines 214-238): unwrap
`response.output || response`; if `data.status === 'success' &&
data.processes`, remap each item field-by-field with defaults;
otherwise return `data.processes || []` as-is. -/

/-- The per-item remapping of the queue list-jobs response: each
canonical field is `p.<field> || <default>`; missing timestamps default
to the current time `now`. -/
def normalizeProcessItem (now : String) (p : JVal) : JVal :=
  JVal.obj
    [("id", getFieldJS p "id"),
     ("status", jsOr (getFieldJS p "status") (JVal.str "unknown")),
     ("type", jsOr (getFieldJS p "type") (JVal.str "training")),
     ("created_at", jsOr (getFieldJS p "created_at") (JVal.str now)),
     ("updated_at", jsOr (getFieldJS p "updated_at") (JVal.str now)),
     ("progress", jsOr (getFieldJS p "progress") (JVal.num 0)),
     ("error", jsOr (getFieldJS p "error") JVal.null)]

/-- The branch of `getProcesses` acting on the unwrapped `data`:
remap when `data.status === 'success' && data.processes`, otherwise
pass `data.processes || []` through.  `Except.error` models a thrown
`TypeError` (`.map` on a truthy non-array); `Except.ok` is the value
handed to the subscriber. -/
def queueResultOfData (data : JVal) (now : String) : Except String JVal :=
  if strictEqStr (getFieldJS data "status") "success" && truthy (getFieldJS data "processes") then
    match getFieldJS data "processes" with
    | .arr items => .ok (.arr (items.map (normalizeProcessItem now)))
    | _ => .error "TypeError: data.processes.map is not a function"
  else
    .ok (jsOr (getFieldJS data "processes") (.arr []))

/-- The whole queue-protocol result mapping of `getProcesses`: unwrap
`const data = response.output || response`, then normalize. -/
def getProcessesQueueResult (response : JVal) (now : String) : Except String JVal :=
  queueResultOfData (jsOr (getFieldJS response "output") response) now

/-! ## File delivery: fallback chain

`downloadFileWithFallback` (frontend logger, lines 530-633): four
methods tried in order inside `try`/`catch`, each attempted only when
every earlier one failed; after the fourth failure the content is
dumped to the console and a final alert is raised.  Whether each
browser mechanism succeeds is the environment oracle below. -/

/-- Which browser mechanisms fail, as an oracle: a thrown exception in
the blob-anchor path, in the data-URI path, in `window.open` (or a
blocked popup, which the source converts into a thrown error), and
clipboard availability/failure. -/
structure BrowserEnv where
  blobAnchorThrows : Bool
  dataUriThrows : Bool
  windowOpenThrows : Bool
  popupBlocked : Bool
  clipboardAvailable : Bool
  clipboardThrows : Bool

/-- The four delivery steps, in source order. -/
inductive DlStep where
  | blobAnchor
  | dataUri
  | newWindow
  | clipboard
deriving DecidableEq

/-- Whether a given step fails under the environment: method 3 fails on
a throw or a blocked popup (`if (newWindow) ... else throw`), method 4
fails when the clipboard API is missing or throws. -/
def stepFails (env : BrowserEnv) : DlStep → Bool
  | .blobAnchor => env.blobAnchorThrows
  | .dataUri => env.dataUriThrows
  | .newWindow => env.windowOpenThrows || env.popupBlocked
  | .clipboard => !env.clipboardAvailable || env.clipboardThrows

/-- How a delivery run ends. -/
inductive DlOutcome where
  | downloaded
  | openedWindow
  | copiedToClipboard
  | failedAll
deriving DecidableEq

/-- Observable result of `downloadFileWithFallback`: the steps
attempted in order, the outcome, whether the paste-and-save alert was
shown (clipboard success), whether the final all-methods-failed alert
was shown, and the content dumped to the console for manual copy
(total failure only). -/
structure DlResult where
  attempts : List DlStep
  outcome : DlOutcome
  pasteInstruction : Bool
  finalAlert : Bool
  dumpedContent : Option String

/-- `downloadFileWithFallback(content, filename, mimeType)`:
method 1 (blob object-URL + anchor), on throw method 2 (data URI +
anchor), on throw method 3 (object URL in a new window, blocked popup
throws), on throw method 4 (clipboard + alert with paste-and-save
instruction), and if that also fails the final alert plus a console
dump of the content. -/
def downloadFileWithFallback (env : BrowserEnv) (content filename mimeType : String) :
    DlResult :=
  if !stepFails env .blobAnchor then
    ⟨[.blobAnchor], .downloaded, false, false, none⟩
  else if !stepFails env .dataUri then
    ⟨[.blobAnchor, .dataUri], .downloaded, false, false, none⟩
  else if !stepFails env .newWindow then
    ⟨[.blobAnchor, .dataUri, .newWindow], .openedWindow, false, false, none⟩
  else if !stepFails env .clipboard then
    ⟨[.blobAnchor, .dataUri, .newWindow, .clipboard], .copiedToClipboard, true, false, none⟩
  else
    ⟨[.blobAnchor, .dataUri, .newWindow, .clipboard], .failedAll, false, true, some content⟩

/-! ## File delivery: bulk download

`downloadAllFiles` (processes-tab component, lines 388-410): empty
list returns; more than 10 items asks `confirm(...)` and a decline
returns before anything opens; otherwise each item is scheduled with
`setTimeout(..., index * 100)`. -/

/-- One entry of `downloadItems`. -/
structure DownloadItem where
  url : String
  size : Nat
  itemType : String

/-- The `forEach` scheduling loop: item at index `i` (counting from
`base`) is opened after `i * 100` milliseconds. -/
def scheduleOpens (base : Nat) : List DownloadItem → List (Nat × String)
  | [] => []
  | item :: rest => (base * 100, item.url) :: scheduleOpens (base + 1) rest

/-- `downloadAllFiles()`: first component is whether the confirmation
dialog was shown, second the scheduled `(delayMillis, url)` opens in
order. -/
def downloadAllFiles (items : List DownloadItem) (confirmAnswer : Bool) :
    Bool × List (Nat × String) :=
  if items.length = 0 then (false, [])
  else if items.length > 10 then
    if confirmAnswer then (true, scheduleOpens 0 items) else (true, [])
  else (false, scheduleOpens 0 items)

/-! ## Base64: the decode path of `triggerFileDownload` and `btoa`

`triggerFileDownload` (lora-tab component) decodes an inline artifact
payload with `atob(base64Data)` and extracts the byte at each index
with `charCodeAt`.  `atob` is modelled on RFC 4648 padded inputs,
which include every canonical (i.e. encoder-produced) base64 string;
`btoa` is the standard encoder.  Bytes are naturals below 256. -/

/-- The base64 alphabet in index order. -/
def b64Alphabet : List Char :=
  "ABCDEFGHIJKLMNOPQRSTUVWXYZabcdefghijklmnopqrstuvwxyz0123456789+/".toList

/-- Index search in the alphabet, carrying the running index. -/
def b64IdxAux : List Char → Nat → Char → Option Nat
  | [], _, _ => none
  | x :: xs, i, c => if x = c then some i else b64IdxAux xs (i + 1) c

/-- The sextet value of an alphabet character, `none` outside the
alphabet (in particular for `=`). -/
def b64Idx (c : Char) : Option Nat := b64IdxAux b64Alphabet 0 c

/-- The alphabet character of a sextet value. -/
def b64Enc (n : Nat) : Char := b64Alphabet.getD n '?'

/-- Browser `atob` followed by per-index `charCodeAt`, on padded
base64: four characters at a time; `xx==` yields one byte, `xxx=` two,
a full group three; any character outside the alphabet (or misplaced
padding) makes the whole decode fail, as `atob` throws
`InvalidCharacterError`. -/
def atob : List Char → Option (List Nat)
  | [] => some []
  | a :: b :: c :: d :: rest =>
      match b64Idx a, b64Idx b with
      | some na, some nb =>
        if c = '=' then
          if d = '=' ∧ rest = [] then some [na * 4 + nb / 16] else none
        else
          match b64Idx c with
          | some nc =>
            if d = '=' then
              if rest = [] then some [na * 4 + nb / 16, nb % 16 * 16 + nc / 4] else none
            else
              match b64Idx d with
              | some nd =>
                  (atob rest).map
                    (fun bs =>
                      (na * 4 + nb / 16) :: (nb % 16 * 16 + nc / 4) :: (nc % 4 * 64 + nd) :: bs)
              | none => none
          | none => none
      | _, _ => none
  | _ => none
termination_by structural l => l

/-- Browser `btoa`: three bytes at a time, with `=` padding on a final
group of one or two bytes. -/
def btoa : List Nat → List Char
  | [] => []
  | [x] => [b64Enc (x / 4), b64Enc (x % 4 * 16), '=', '=']
  | [x, y] => [b64Enc (x / 4), b64Enc (x % 4 * 16 + y / 16), b64Enc (y % 16 * 4), '=']
  | x :: y :: z :: rest =>
      b64Enc (x / 4) :: b64Enc (x % 4 * 16 + y / 16) :: b64Enc (y % 16 * 4 + z / 64) ::
        b64Enc (z % 64) :: btoa rest
termination_by structural l => l

/-- A canonical base64 string: the encoding of some byte sequence. -/
def IsCanonicalB64 (s : List Char) : Prop :=
  ∃ bs : List Nat, (∀ x ∈ bs, x < 256) ∧ btoa bs = s

/-! ## Concrete sample data used by witnesses and counterexamples -/

/-- A minimal log entry. -/
def sampleEntry : LogEntry :=
  { timestamp := "2024-01-01T00:00:00.000Z", type := .REQUEST, level := .INFO }

/-- A second distinct log entry. -/
def sampleEntry2 : LogEntry :=
  { timestamp := "2024-01-01T00:00:01.000Z", type := .RESPONSE, level := .INFO }

/-- A third distinct log entry. -/
def sampleEntry3 : LogEntry :=
  { timestamp := "2024-01-01T00:00:02.000Z", type := .ERROR, level := .ERROR }

/-- A payload whose only secret sits under the key `auth`. -/
def authPayload : JVal := JVal.obj [("auth", JVal.str "hunter2")]

/-- A payload with a sensitive key next to a harmless one. -/
def tokenPayload : JVal :=
  JVal.obj [("apiToken", JVal.str "rpa-12345"), ("endpoint", JVal.str "/health")]

/-- A job that is not completed. -/
def pendingProcess : Process :=
  { id := "p1", name := "Process p1", status := "pending", ptype := "training", progress := 10 }

/-- The logger state after one `logRequest` whose generated id was `abc`. -/
def collideState1 : LoggerState :=
  (logRequest { logs := [], maxLogs := 5000 } "t1" "/api" "GET" JVal.null none "abc").2

/-- The state after a second `logRequest` for which `Math.random`
produced the same id `abc` again. -/
def collideState2 : LoggerState :=
  (logRequest collideState1 "t2" "/api2" "POST" JVal.null none "abc").2

/-- A queue list-jobs response with no top-level `status` field whose
single item also lacks `status`. -/
def rawProcessesResponse : JVal :=
  JVal.obj [("processes", JVal.arr [JVal.obj [("id", JVal.str "a")]])]

/-- A browser environment in which every delivery mechanism fails. -/
def allFailEnv : BrowserEnv :=
  { blobAnchorThrows := true, dataUriThrows := true, windowOpenThrows := false,
    popupBlocked := true, clipboardAvailable := false, clipboardThrows := false }

/-- A download item pointing at a fixed URL. -/
def sampleItem : DownloadItem := { url := "https://x/y.zip", size := 1024, itemType := "lora" }

/-! ## Helper lemmas: suffixes and the bounded append -/

/-- The last `n` elements are at most `n` many. -/
theorem lastN_length_le {α : Type} (l : List α) (n : Nat) : (lastN l n).length ≤ n := by
  simp [lastN]

/-- A list of length at most `n` is its own last `n` elements. -/
theorem lastN_eq_self {α : Type} {l : List α} {n : Nat} (h : l.length ≤ n) : lastN l n = l := by
  have : l.reverse.length ≤ n := by simpa using h
  simp [lastN, List.take_of_length_le this]

/-- Taking `n` from `a ++ b.take n` is taking `n` from `a ++ b`. -/
theorem take_append_take {α : Type} (n : Nat) (a b : List α) :
    (a ++ b.take n).take n = (a ++ b).take n := by
  rw [List.take_append_eq_append_take, List.take_append_eq_append_take, List.take_take]
  have : min (n - a.length) n = n - a.length := by omega
  rw [this]

/-- Keeping the last `n` is idempotent across later appends. -/
theorem lastN_append_lastN {α : Type} (l t : List α) (n : Nat) :
    lastN (lastN l n ++ t) n = lastN (l ++ t) n := by
  unfold lastN
  rw [List.reverse_append, List.reverse_reverse, List.reverse_append]
  rw [take_append_take]

/-- Splitting the last `n` elements of `l ++ [e]`. -/
theorem lastN_append_singleton {α : Type} (l : List α) (e : α) {n : Nat} (h : 0 < n) :
    lastN (l ++ [e]) n = lastN l (n - 1) ++ [e] := by
  obtain ⟨m, rfl⟩ : ∃ m, n = m + 1 := ⟨n - 1, by omega⟩
  simp [lastN, List.take_succ_cons]

/-- Elements of the last `n` elements are elements. -/
theorem mem_lastN {α : Type} {x : α} {l : List α} {n : Nat} (h : x ∈ lastN l n) : x ∈ l := by
  unfold lastN at h
  rw [List.mem_reverse] at h
  have := List.take_subset n l.reverse h
  simpa using this

/-- With a positive bound, `addLog` leaves exactly the last `maxLogs`
elements of the extended sequence (which is everything while the bound
is not yet exceeded). -/
theorem addLog_logs (s : LoggerState) (e : LogEntry) (h : 0 < s.maxLogs) :
    (addLog s e).logs = lastN (s.logs ++ [e]) s.maxLogs := by
  unfold addLog jsSliceLast
  by_cases hlen : (s.logs ++ [e]).length > s.maxLogs
  · simp only [hlen, if_true]
    have : ¬ (s.maxLogs = 0) := by omega
    simp [this]
  · simp only [hlen, if_false]
    exact (lastN_eq_self (by omega)).symm

/-- `addLog` does not change the configured bound. -/
theorem addLog_maxLogs (s : LoggerState) (e : LogEntry) :
    (addLog s e).maxLogs = s.maxLogs := rfl

/-- The entry just added is always the last element. -/
theorem addLog_getLast (s : LoggerState) (e : LogEntry) :
    (addLog s e).logs.getLast? = some e := by
  simp only [addLog, jsSliceLast]
  split
  · split
    · simp
    · rename_i hz
      rw [lastN_append_singleton s.logs e (Nat.pos_of_ne_zero hz)]
      simp
  · simp

/-- `setMaxLogs` with a positive bound stores the bound and keeps
exactly the last `m` entries. -/
theorem setMaxLogs_spec (s : LoggerState) (m : Nat) (hm : 0 < m) :
    (setMaxLogs s m).maxLogs = m ∧ (setMaxLogs s m).logs = lastN s.logs m := by
  unfold setMaxLogs jsSliceLast
  by_cases hlen : s.logs.length > m
  · have hz : ¬ (m = 0) := by omega
    simp [hlen, hz]
  · have hle : s.logs.length ≤ m := by omega
    simp [hlen, lastN_eq_self hle]

/-- Folding `addLog` over a nonempty batch yields exactly the last
`maxLogs` elements of the concatenation, in order. -/
theorem addLogs_logs (s : LoggerState) (es : List LogEntry) (h : 0 < s.maxLogs)
    (hne : es ≠ []) : (addLogs s es).logs = lastN (s.logs ++ es) s.maxLogs := by
  induction es generalizing s with
  | nil => exact absurd rfl hne
  | cons e rest ih =>
    by_cases hr : rest = []
    · subst hr
      simpa [addLogs] using addLog_logs s e h
    · have hmax : 0 < (addLog s e).maxLogs := by rwa [addLog_maxLogs]
      have step := ih (addLog s e) hmax hr
      calc (addLogs s (e :: rest)).logs
          = (addLogs (addLog s e) rest).logs := by simp [addLogs]
        _ = lastN ((addLog s e).logs ++ rest) (addLog s e).maxLogs := step
        _ = lastN (lastN (s.logs ++ [e]) s.maxLogs ++ rest) s.maxLogs := by
              rw [addLog_logs s e h, addLog_maxLogs]
        _ = lastN ((s.logs ++ [e]) ++ rest) s.maxLogs := lastN_append_lastN _ _ _
        _ = lastN (s.logs ++ (e :: rest)) s.maxLogs := by simp

/-- `addLogs` does not change the configured bound. -/
theorem addLogs_maxLogs (s : LoggerState) (es : List LogEntry) :
    (addLogs s es).maxLogs = s.maxLogs := by
  induction es generalizing s with
  | nil => rfl
  | cons e rest ih => simpa [addLogs] using ih (addLog s e)

/-- C4 (amended): for every positive configured bound, after any
nonempty batch of logging calls the in-memory sequence is exactly the
last `maxLogs` entries of everything appended, in insertion order —
oldest evicted first — so its length never exceeds the bound and it
equals the bound exactly once enough entries have been appended; and
`setMaxLogs` with a positive bound re-establishes the same shape.  (For
`maxLogs = 0` the source's `slice(-0)` keeps the whole array, see the
counterexample.) -/
theorem c4_bounded_fifo (s : LoggerState) (es : List LogEntry)
    (hmax : 0 < s.maxLogs) (hne : es ≠ []) :
    (addLogs s es).logs = lastN (s.logs ++ es) s.maxLogs ∧
    (addLogs s es).logs.length ≤ s.maxLogs ∧
    (s.maxLogs ≤ (s.logs ++ es).length → (addLogs s es).logs.length = s.maxLogs) ∧
    (∀ m : Nat, 0 < m →
      (setMaxLogs s m).maxLogs = m ∧ (setMaxLogs s m).logs = lastN s.logs m ∧
        (setMaxLogs s m).logs.length ≤ m) := by
  have hlogs := addLogs_logs s es hmax hne
  refine ⟨hlogs, ?_, ?_, ?_⟩
  · rw [hlogs]; exact lastN_length_le _ _
  · intro hge
    rw [hlogs]
    have hmin : (lastN (s.logs ++ es) s.maxLogs).length =
        min s.maxLogs (s.logs ++ es).length := by
      simp [lastN]
      omega
    rw [hmin]
    omega
  · intro m hm
    obtain ⟨h1, h2⟩ := setMaxLogs_spec s m hm
    exact ⟨h1, h2, by rw [h2]; exact lastN_length_le _ _⟩

/-- C4 witness: a logger bounded at 2 receives 3 entries and retains
exactly the 2 most recent, in order. -/
theorem c4_witness :
    (addLogs { logs := [], maxLogs := 2 } [sampleEntry, sampleEntry2, sampleEntry3]).logs =
        [sampleEntry2, sampleEntry3] ∧
    (addLogs { logs := [], maxLogs := 2 } [sampleEntry, sampleEntry2, sampleEntry3]).logs.length ≤ 2 := by
  have h := c4_bounded_fifo { logs := [], maxLogs := 2 }
    [sampleEntry, sampleEntry2, sampleEntry3] (by decide) (by simp)
  refine ⟨?_, h.2.1⟩
  rw [h.1]
  simp [lastN]

/-- C4 counterexample: after `setMaxLogs(0)` the claimed bound fails —
JavaScript `slice(-0)` is `slice(0)`, so `addLog` keeps the pushed
entry and the sequence has length 1 > 0, the configured maximum. -/
theorem c4_counterexample :
    (setMaxLogs { logs := [], maxLogs := 5000 } 0).maxLogs = 0 ∧
    (addLog (setMaxLogs { logs := [], maxLogs := 5000 } 0) sampleEntry).logs.length = 1 ∧
    (setMaxLogs { logs := [], maxLogs := 5000 } 0).maxLogs <
      (addLog (setMaxLogs { logs := [], maxLogs := 5000 } 0) sampleEntry).logs.length := by
  refine ⟨rfl, rfl, ?_⟩
  decide

/-! ## Claim C2: sanitization -/

/-- On JSON values the falsy shortcut of `sanitizeData` is invisible:
every falsy JSON value is a leaf the recursive walk leaves unchanged. -/
theorem sanitizeData_eq (d : JVal) : sanitizeData d = sanitizeVal d := by
  unfold sanitizeData
  split
  · rfl
  · rename_i h
    cases d <;> simp_all [truthy, sanitizeVal]

mutual
/-- After sanitization every sensitive-keyed field holds the marker. -/
theorem hidden_sanitize (v : JVal) : hiddenOKv (sanitizeVal v) = true := by
  cases v with
  | obj fs => simpa only [sanitizeVal, hiddenOKv] using hidden_sanitizeF fs
  | arr xs => simpa only [sanitizeVal, hiddenOKv] using hidden_sanitizeI xs
  | _ => rfl
/-- `hidden_sanitize` on field lists. -/
theorem hidden_sanitizeF (fs : List (String × JVal)) :
    hiddenOKf (sanitizeFields fs) = true := by
  cases fs with
  | nil => rfl
  | cons kv rest =>
    obtain ⟨k, v⟩ := kv
    cases h : isSensitiveKey k with
    | true => simp [sanitizeFields, hiddenOKf, h, hidden_sanitizeF rest, hiddenMarker]
    | false => simp [sanitizeFields, hiddenOKf, h, hidden_sanitizeF rest, hidden_sanitize v]
/-- `hidden_sanitize` on element lists. -/
theorem hidden_sanitizeI (xs : List JVal) : hiddenOKi (sanitizeItems xs) = true := by
  cases xs with
  | nil => rfl
  | cons v rest => simp [sanitizeItems, hiddenOKi, hidden_sanitize v, hidden_sanitizeI rest]
end

mutual
/-- Every leaf of the sanitized value is the marker or a leaf already
reachable without passing through a sensitive key. -/
theorem leaves_sanitize (v : JVal) :
    ∀ x ∈ leavesV (sanitizeVal v), x = hiddenMarker ∨ x ∈ leavesV (eraseSensV v) := by
  cases v with
  | obj fs => simpa only [sanitizeVal, leavesV, eraseSensV] using leaves_sanitizeF fs
  | arr xs => simpa only [sanitizeVal, leavesV, eraseSensV] using leaves_sanitizeI xs
  | null => intro x hx; right; simpa [sanitizeVal, leavesV, eraseSensV] using hx
  | str s => intro x hx; right; simpa [sanitizeVal, leavesV, eraseSensV] using hx
  | num n => intro x hx; right; simpa [sanitizeVal, leavesV, eraseSensV] using hx
  | bool b => intro x hx; right; simpa [sanitizeVal, leavesV, eraseSensV] using hx
/-- `leaves_sanitize` on field lists. -/
theorem leaves_sanitizeF (fs : List (String × JVal)) :
    ∀ x ∈ leavesF (sanitizeFields fs), x = hiddenMarker ∨ x ∈ leavesF (eraseSensF fs) := by
  cases fs with
  | nil => intro x hx; simp [sanitizeFields, leavesF] at hx
  | cons kv rest =>
    obtain ⟨k, v⟩ := kv
    intro x hx
    simp only [sanitizeFields, leavesF, List.mem_append] at hx
    cases h : isSensitiveKey k with
    | true =>
      rw [h] at hx
      simp only [if_true] at hx
      rcases hx with hx | hx
      · left
        simpa [hiddenMarker, leavesV] using hx
      · rcases leaves_sanitizeF rest x hx with hm | hmem
        · exact Or.inl hm
        · right
          simpa [eraseSensF, h] using hmem
    | false =>
      rw [h] at hx
      simp only [if_false, Bool.false_eq_true] at hx
      rcases hx with hx | hx
      · rcases leaves_sanitize v x hx with hm | hmem
        · exact Or.inl hm
        · right
          simp [eraseSensF, h, leavesF, List.mem_append]
          exact Or.inl hmem
      · rcases leaves_sanitizeF rest x hx with hm | hmem
        · exact Or.inl hm
        · right
          simp [eraseSensF, h, leavesF, List.mem_append]
          exact Or.inr hmem
/-- `leaves_sanitize` on element lists. -/
theorem leaves_sanitizeI (xs : List JVal) :
    ∀ x ∈ leavesI (sanitizeItems xs), x = hiddenMarker ∨ x ∈ leavesI (eraseSensI xs) := by
  cases xs with
  | nil => intro x hx; simp [sanitizeItems, leavesI] at hx
  | cons v rest =>
    intro x hx
    simp only [sanitizeItems, leavesI, List.mem_append] at hx
    rcases hx with hx | hx
    · rcases leaves_sanitize v x hx with hm | hmem
      · exact Or.inl hm
      · right
        simp [eraseSensI, leavesI, List.mem_append]
        exact Or.inl hmem
    · rcases leaves_sanitizeI rest x hx with hm | hmem
      · exact Or.inl hm
      · right
        simp [eraseSensI, leavesI, List.mem_append]
        exact Or.inr hmem
end

/-- C2 (amended): the entry `logRequest` stores carries exactly the
sanitized payload; in the sanitized payload every key at any nesting
depth whose lowercased name contains one of the four source terms
`password`, `token`, `key`, `secret` has its value replaced by the
marker `***HIDDEN***`; and every leaf of the sanitized payload is the
marker or a value reachable without passing through a sensitive key —
so a value stored only under sensitive keys is gone.  (The term `auth`
is not on the source's list, see the counterexample.) -/
theorem c2_sanitization (s : LoggerState) (now ep method : String) (data : JVal)
    (sid : Option String) (rid : String) :
    ((logRequest s now ep method data sid rid).2.logs.getLast?.map LogEntry.data)
        = some (some (sanitizeData data)) ∧
    hiddenOKv (sanitizeData data) = true ∧
    (∀ x ∈ leavesV (sanitizeData data), x = hiddenMarker ∨ x ∈ leavesV (eraseSensV data)) := by
  refine ⟨?_, ?_, ?_⟩
  · simp only [logRequest]
    rw [addLog_getLast]
    rfl
  · rw [sanitizeData_eq]
    exact hidden_sanitize data
  · rw [sanitizeData_eq]
    exact leaves_sanitize data

/-- C2 witness: on a payload with the sensitive key `apiToken` next to
a harmless `endpoint`, the conjuncts of the theorem are discharged at a
concrete leaf. -/
theorem c2_witness :
    hiddenOKv (sanitizeData tokenPayload) = true ∧
    (JVal.str "/health" = hiddenMarker ∨ JVal.str "/health" ∈ leavesV (eraseSensV tokenPayload)) := by
  have h := c2_sanitization { logs := [], maxLogs := 5000 } "t" "/api" "GET" tokenPayload none "r1"
  refine ⟨h.2.1, h.2.2 (JVal.str "/health") ?_⟩
  rw [sanitizeData_eq]
  simp +decide [tokenPayload, sanitizeVal, sanitizeFields, leavesV, leavesF, hiddenMarker]

/-- C2 counterexample: the term `auth` is absent from the source's
sensitive-term list, so a payload keyed `auth` passes through
sanitization unchanged and its secret value is stored, not the marker. -/
theorem c2_counterexample :
    sanitizeData authPayload = authPayload ∧
    getField (sanitizeData authPayload) "auth" = some (JVal.str "hunter2") := by
  constructor <;>
    simp +decide [sanitizeData, truthy, sanitizeVal, sanitizeFields, authPayload, getField,
      lookupField]

/-! ## Claim C8: request correlation -/

/-- A filter over entries the predicate rejects is empty. -/
theorem filter_none_of_fresh {α : Type} (p : α → Bool) (l : List α)
    (h : ∀ x ∈ l, p x = false) : l.filter p = [] := by
  induction l with
  | nil => rfl
  | cons a t ih =>
    have ha := h a (by simp)
    simp only [List.filter, ha]
    exact ih (fun x hx => h x (by simp [hx]))

/-- C8 (amended): provided the id chosen by `logRequest` (the supplied
one, or the `Math.random`-generated one) differs from the `requestId`
of every entry already in the log — which the source does not check —
`getLogsByRequestId` on the returned id immediately afterwards yields
exactly one entry, of type REQUEST, with the endpoint and method passed
to `logRequest`. -/
theorem c8_correlation (s : LoggerState) (now ep method : String) (data : JVal)
    (sid : Option String) (rid : String) (hmax : 0 < s.maxLogs)
    (hfresh : ∀ x ∈ s.logs,
      x.requestId ≠ some (logRequest s now ep method data sid rid).1) :
    ∃ e : LogEntry,
      getLogsByRequestId (logRequest s now ep method data sid rid).2
          (logRequest s now ep method data sid rid).1 = [e] ∧
      e.type = LogType.REQUEST ∧ e.endpoint = some ep ∧ e.method = some method ∧
      e.requestId = some (logRequest s now ep method data sid rid).1 := by
  simp only [logRequest] at hfresh ⊢
  refine ⟨{ timestamp := now, type := .REQUEST, level := .INFO,
            requestId := some (jsOrStr (sid.getD "") rid), endpoint := some ep,
            method := some method, data := some (sanitizeData data) }, ?_, rfl, rfl, rfl, rfl⟩
  unfold getLogsByRequestId
  rw [addLog_logs s _ hmax, lastN_append_singleton s.logs _ hmax, List.filter_append]
  have hnil : List.filter (fun l => l.requestId == some (jsOrStr (sid.getD "") rid))
      (lastN s.logs (s.maxLogs - 1)) = [] := by
    refine filter_none_of_fresh _ _ ?_
    intro x hx
    have hne := hfresh x (mem_lastN hx)
    simpa using hne
  rw [hnil]
  simp

/-- C8 witness: on an empty logger the freshness hypothesis is vacuous
and the returned id retrieves exactly the one REQUEST entry. -/
theorem c8_witness :
    (getLogsByRequestId
        (logRequest { logs := [], maxLogs := 5000 } "t" "/api" "GET" JVal.null none "xyz").2
        (logRequest { logs := [], maxLogs := 5000 } "t" "/api" "GET" JVal.null none "xyz").1).length
      = 1 := by
  obtain ⟨e, h1, -, -, -, -⟩ :=
    c8_correlation { logs := [], maxLogs := 5000 } "t" "/api" "GET" JVal.null none "xyz"
      (by decide) (by intro x hx; simp at hx)
  rw [h1]
  rfl

/-- C8 counterexample: `generateRequestId` draws 8 base-36 digits from
`Math.random` with no uniqueness check against the existing log, so
when the draw repeats an id already present (`abc` twice), the lookup
on the returned id yields two entries, not exactly one. -/
theorem c8_counterexample :
    (logRequest collideState1 "t2" "/api2" "POST" JVal.null none "abc").1 = "abc" ∧
    (getLogsByRequestId collideState2 "abc").length = 2 := by
  constructor
  · rfl
  · rfl

/-! ## Claim C10: `getLogs` returns a fresh copy -/

/-- Appending a fresh array leaves existing references unchanged. -/
theorem readArr_append_lt (st : LogStore) (v : List LogEntry) (r : Nat)
    (h : r < st.arrays.length) : readArr ⟨st.arrays ++ [v]⟩ r = readArr st r := by
  simp [readArr, List.getD_eq_getElem?_getD, List.getElem?_append, h]

/-- The fresh reference reads back the allocated contents. -/
theorem readArr_append_last (st : LogStore) (v : List LogEntry) :
    readArr ⟨st.arrays ++ [v]⟩ st.arrays.length = v := by
  simp [readArr, List.getD_eq_getElem?_getD, List.getElem?_concat_length]

/-- Writing through one reference leaves the others unchanged. -/
theorem readArr_set_ne (st : LogStore) (i j : Nat) (v : List LogEntry) (h : i ≠ j) :
    readArr (writeArr st i v) j = readArr st j := by
  simp [readArr, writeArr, List.getD_eq_getElem?_getD, List.getElem?_set_ne h]

/-- `addLog` only touches the logger's own array and freshly allocated
ones: any other valid reference keeps its contents. -/
theorem addLogST_preserves (lg : LoggerRef) (st : LogStore) (e : LogEntry) (r : Nat)
    (hr1 : r ≠ lg.logsRef) (hr2 : r < st.arrays.length) :
    readArr (addLogST lg st e).2 r = readArr st r := by
  simp only [addLogST]
  by_cases hc : (readArr st lg.logsRef ++ [e]).length > lg.maxLogs
  · simp only [hc, if_true, allocArr]
    rw [readArr_append_lt _ _ _ (by simp [writeArr]; omega)]
    exact readArr_set_ne st lg.logsRef r _ (fun h => hr1 h.symm)
  · simp only [hc, if_false]
    exact readArr_set_ne st lg.logsRef r _ (fun h => hr1 h.symm)

/-- C10: `getLogs` allocates a fresh array carrying a copy of the
entries: the returned reference differs from the logger's internal one,
both initially read the same contents, mutating the returned array
leaves the internal sequence unchanged, and a later `addLog` leaves the
previously returned array unchanged. -/
theorem c10_fresh_copy (lg : LoggerRef) (st : LogStore)
    (hvalid : lg.logsRef < st.arrays.length) :
    (getLogsST lg st).1 ≠ lg.logsRef ∧
    readArr (getLogsST lg st).2 lg.logsRef = readArr st lg.logsRef ∧
    readArr (getLogsST lg st).2 (getLogsST lg st).1 = readArr st lg.logsRef ∧
    (∀ v, readArr (writeArr (getLogsST lg st).2 (getLogsST lg st).1 v) lg.logsRef =
      readArr st lg.logsRef) ∧
    (∀ e, readArr (addLogST lg (getLogsST lg st).2 e).2 (getLogsST lg st).1 =
      readArr (getLogsST lg st).2 (getLogsST lg st).1) := by
  have hne : st.arrays.length ≠ lg.logsRef := by omega
  refine ⟨hne, readArr_append_lt st _ _ hvalid, readArr_append_last st _, ?_, ?_⟩
  · intro v
    simp only [getLogsST, allocArr]
    rw [readArr_set_ne _ _ _ _ hne]
    exact readArr_append_lt st _ _ hvalid
  · intro e
    exact addLogST_preserves lg _ e _ hne (by simp [getLogsST, allocArr])

/-- C10 witness: with one stored array, the reference `getLogs` returns
is fresh, and clearing the returned array leaves the internal entry
sequence intact. -/
theorem c10_witness :
    (getLogsST { logsRef := 0, maxLogs := 5 } ⟨[[sampleEntry]]⟩).1 = 1 ∧
    readArr (writeArr (getLogsST { logsRef := 0, maxLogs := 5 } ⟨[[sampleEntry]]⟩).2
        (getLogsST { logsRef := 0, maxLogs := 5 } ⟨[[sampleEntry]]⟩).1 []) 0 = [sampleEntry] := by
  have h := c10_fresh_copy { logsRef := 0, maxLogs := 5 } ⟨[[sampleEntry]]⟩ (by decide)
  refine ⟨rfl, ?_⟩
  rw [h.2.2.2.1 []]
  rfl

/-! ## Claim C1: artifact fetch on a non-completed job -/

/-- C1 (amended): for a job whose status is not `completed`,
`downloadResults` returns before calling `getDownloadUrl`: no network
request is issued — neither a POST of the `download` envelope nor a GET
of `/download/{id}` — and no error of any kind is raised; the guard is
a silent early return, not a `NotCompleted` failure. -/
theorem c1_notCompleted_silent (baseUrl runpodToken token : String) (p : Process)
    (h : p.status ≠ "completed") :
    downloadResults baseUrl runpodToken token p = ([], none) := by
  simp [downloadResults, h]

/-- C1 witness: a pending job on the queue endpoint produces no
requests and no error. -/
theorem c1_witness :
    downloadResults "https://api.runpod.ai/v2/x64wt6hgrh9sai" "rp-token" "bearer-token"
      pendingProcess = ([], none) :=
  c1_notCompleted_silent "https://api.runpod.ai/v2/x64wt6hgrh9sai" "rp-token" "bearer-token"
    pendingProcess (by decide)

/-- C1 counterexample: on a pending job the claimed `NotCompleted`
failure does not happen — the surfaced-error component is `none`, so no
`NotCompleted` (or any other) error is raised, while the no-network
half of the claim does hold. -/
theorem c1_counterexample :
    (downloadResults "https://api.runpod.ai/v2/x64wt6hgrh9sai" "rp-token" "bearer-token"
        pendingProcess).1 = [] ∧
    (downloadResults "https://api.runpod.ai/v2/x64wt6hgrh9sai" "rp-token" "bearer-token"
        pendingProcess).2 = none := by
  exact ⟨rfl, rfl⟩

/-! ## Claim C3: header construction -/

/-- Membership characterization of the `getHeaders` result. -/
theorem mem_getHeaders (token runpodToken k v : String) :
    (k, v) ∈ getHeaders token runpodToken ↔
      (k = "Content-Type" ∧ v = "application/json") ∨
      (token ≠ "" ∧ k = "Authorization" ∧ v = "Bearer " ++ token) ∨
      (runpodToken ≠ "" ∧ k = "X-RunPod-Token" ∧ v = runpodToken) := by
  unfold getHeaders
  by_cases ht : token = "" <;> by_cases hr : runpodToken = "" <;> simp [ht, hr] <;> tauto

/-- A string of length zero is empty. -/
theorem str_eq_empty_of_length_zero (s : String) (h : s.length = 0) : s = "" := by
  cases s with
  | mk data =>
    cases data with
    | nil => rfl
    | cons c cs => simp [String.length] at h

/-- Appending a nonempty string to `Bearer ` never gives back
`Bearer ` or the empty string. -/
theorem bearer_ne (t : String) (ht : t ≠ "") :
    "Bearer " ++ t ≠ "Bearer " ∧ "Bearer " ++ t ≠ "" := by
  have h7 : ("Bearer " : String).length = 7 := by decide
  have hlen : ("Bearer " ++ t).length = 7 + t.length := by
    rw [String.length_append, h7]
  have htl : t.length ≠ 0 := fun h => ht (str_eq_empty_of_length_zero t h)
  constructor
  · intro h
    have := congrArg String.length h
    rw [hlen, h7] at this
    omega
  · intro h
    have := congrArg String.length h
    rw [hlen] at this
    simp at this

/-- C3 (amended): on the direct protocol, `getHeaders` omits the
`Authorization` header exactly when the bearer token is absent and the
`X-RunPod-Token` header exactly when the provider token is absent, and
never produces an empty value or the bare placeholder `Bearer `; but
every queue-protocol call sends `Authorization: Bearer <providerToken>`
unconditionally, even when the provider token is absent. -/
theorem c3_header_policy (token runpodToken : String) :
    ((∃ v, ("Authorization", v) ∈ getHeaders token runpodToken) ↔ token ≠ "") ∧
    ((∃ v, ("X-RunPod-Token", v) ∈ getHeaders token runpodToken) ↔ runpodToken ≠ "") ∧
    (∀ v, ("Authorization", v) ∈ getHeaders token runpodToken → v ≠ "" ∧ v ≠ "Bearer ") ∧
    (∀ v, ("X-RunPod-Token", v) ∈ getHeaders token runpodToken → v ≠ "") ∧
    ("Authorization", "Bearer " ++ runpodToken) ∈ runsyncHeaders runpodToken ∧
    ("Authorization", "Bearer " ++ runpodToken) ∈ nativeHealthHeaders runpodToken := by
  refine ⟨?_, ?_, ?_, ?_, by simp [runsyncHeaders], by simp [nativeHealthHeaders]⟩
  · constructor
    · rintro ⟨v, hv⟩
      rcases (mem_getHeaders token runpodToken _ v).mp hv with ⟨hk, _⟩ | ⟨ht, _, _⟩ | ⟨_, hk, _⟩
      · exact absurd hk (by decide)
      · exact ht
      · exact absurd hk (by decide)
    · intro ht
      exact ⟨"Bearer " ++ token,
        (mem_getHeaders token runpodToken _ _).mpr (Or.inr (Or.inl ⟨ht, rfl, rfl⟩))⟩
  · constructor
    · rintro ⟨v, hv⟩
      rcases (mem_getHeaders token runpodToken _ v).mp hv with ⟨hk, _⟩ | ⟨_, hk, _⟩ | ⟨hr, _, _⟩
      · exact absurd hk (by decide)
      · exact absurd hk (by decide)
      · exact hr
    · intro hr
      exact ⟨runpodToken,
        (mem_getHeaders token runpodToken _ _).mpr (Or.inr (Or.inr ⟨hr, rfl, rfl⟩))⟩
  · intro v hv
    rcases (mem_getHeaders token runpodToken _ v).mp hv with ⟨hk, _⟩ | ⟨ht, _, hv2⟩ | ⟨_, hk, _⟩
    · exact absurd hk (by decide)
    · subst hv2
      exact ⟨(bearer_ne token ht).2, (bearer_ne token ht).1⟩
    · exact absurd hk (by decide)
  · intro v hv
    rcases (mem_getHeaders token runpodToken _ v).mp hv with ⟨hk, _⟩ | ⟨_, hk, _⟩ | ⟨hr, _, hv2⟩
    · exact absurd hk (by decide)
    · exact absurd hk (by decide)
    · subst hv2
      exact hr

/-- C3 witness: with both tokens present the direct-protocol headers
carry a well-formed bearer value, and the queue headers carry the
provider token. -/
theorem c3_witness :
    decide ("Bearer " ++ "tok123" = "Bearer ") = false ∧
    ("Authorization", "Bearer " ++ "rpa-1") ∈ runsyncHeaders "rpa-1" := by
  have h := c3_header_policy "tok123" "rpa-1"
  refine ⟨?_, h.2.2.2.2.1⟩
  exact decide_eq_false (h.2.2.1 ("Bearer " ++ "tok123") (by decide)).2

/-- C3 counterexample: with the provider token absent, the
queue-protocol branches still send `Authorization` with the bare
placeholder value `Bearer ` instead of omitting the header. -/
theorem c3_counterexample :
    ("Authorization", "Bearer ") ∈ runsyncHeaders "" ∧
    ("Authorization", "Bearer ") ∈ nativeHealthHeaders "" := by
  constructor <;> decide

/-! ## Claim C5: queue list-jobs normalization -/

/-- C5 (amended): inside the `status === 'success' && processes`
branch, every remapped job defaults a missing `status` to `unknown`, a
missing `type` to `training`, missing timestamps to the current time,
and a missing `progress` to 0, and mapping an item array never throws;
a response without that success envelope is passed through as
`data.processes || []`, unnormalized (and also without throwing). -/
theorem c5_queue_normalization (now : String) :
    (∀ p : JVal, getField p "status" = none →
        getField (normalizeProcessItem now p) "status" = some (JVal.str "unknown")) ∧
    (∀ p : JVal, getField p "type" = none →
        getField (normalizeProcessItem now p) "type" = some (JVal.str "training")) ∧
    (∀ p : JVal, getField p "created_at" = none →
        getField (normalizeProcessItem now p) "created_at" = some (JVal.str now)) ∧
    (∀ p : JVal, getField p "updated_at" = none →
        getField (normalizeProcessItem now p) "updated_at" = some (JVal.str now)) ∧
    (∀ p : JVal, getField p "progress" = none →
        getField (normalizeProcessItem now p) "progress" = some (JVal.num 0)) ∧
    (∀ items : List JVal,
      getProcessesQueueResult
          (JVal.obj [("status", JVal.str "success"), ("processes", JVal.arr items)]) now =
        .ok (JVal.arr (items.map (normalizeProcessItem now)))) ∧
    (∀ resp : JVal, getField resp "output" = none →
        strictEqStr (getFieldJS resp "status") "success" = false →
        getProcessesQueueResult resp now =
          .ok (jsOr (getFieldJS resp "processes") (JVal.arr []))) := by
  refine ⟨?_, ?_, ?_, ?_, ?_, ?_, ?_⟩
  · intro p h
    have e : getField (normalizeProcessItem now p) "status" =
        some (jsOr (getFieldJS p "status") (JVal.str "unknown")) := rfl
    rw [e]
    unfold getFieldJS
    rw [h]
    rfl
  · intro p h
    have e : getField (normalizeProcessItem now p) "type" =
        some (jsOr (getFieldJS p "type") (JVal.str "training")) := rfl
    rw [e]
    unfold getFieldJS
    rw [h]
    rfl
  · intro p h
    have e : getField (normalizeProcessItem now p) "created_at" =
        some (jsOr (getFieldJS p "created_at") (JVal.str now)) := rfl
    rw [e]
    unfold getFieldJS
    rw [h]
    rfl
  · intro p h
    have e : getField (normalizeProcessItem now p) "updated_at" =
        some (jsOr (getFieldJS p "updated_at") (JVal.str now)) := rfl
    rw [e]
    unfold getFieldJS
    rw [h]
    rfl
  · intro p h
    have e : getField (normalizeProcessItem now p) "progress" =
        some (jsOr (getFieldJS p "progress") (JVal.num 0)) := rfl
    rw [e]
    unfold getFieldJS
    rw [h]
    rfl
  · intro items
    rfl
  · intro resp hout hsucc
    unfold getProcessesQueueResult
    have hdata : jsOr (getFieldJS resp "output") resp = resp := by
      unfold getFieldJS
      rw [hout]
      rfl
    rw [hdata]
    unfold queueResultOfData
    rw [hsucc, Bool.false_and]
    simp

/-- C5 witness: an item lacking `status` receives `unknown` inside the
success envelope, and the envelope maps without failure. -/
theorem c5_witness :
    getField (normalizeProcessItem "T0" (JVal.obj [("id", JVal.str "a")])) "status" =
        some (JVal.str "unknown") ∧
    getProcessesQueueResult
        (JVal.obj [("status", JVal.str "success"),
          ("processes", JVal.arr [JVal.obj [("id", JVal.str "a")]])]) "T0" =
      .ok (JVal.arr [normalizeProcessItem "T0" (JVal.obj [("id", JVal.str "a")])]) := by
  have h := c5_queue_normalization "T0"
  exact ⟨h.1 (JVal.obj [("id", JVal.str "a")]) rfl,
    h.2.2.2.2.2.1 [JVal.obj [("id", JVal.str "a")]]⟩

/-- C5 counterexample: a queue response whose envelope lacks
`status: 'success'` is passed through raw — the returned job still has
no `status` field at all, not the default `unknown`. -/
theorem c5_counterexample :
    getProcessesQueueResult rawProcessesResponse "T0" =
      .ok (JVal.arr [JVal.obj [("id", JVal.str "a")]]) ∧
    getField (JVal.obj [("id", JVal.str "a")]) "status" = none := by
  exact ⟨rfl, rfl⟩

/-! ## Claim C6: the delivery fallback chain -/

/-- C6: delivery always starts at the blob-anchor step; each later step
is attempted exactly when every earlier step failed; when all four
steps fail the outcome is total failure, the final alert is raised and
the content is surfaced on the diagnostic channel — never a silent
failure; a clipboard success carries the paste-and-save instruction. -/
theorem c6_fallback_chain (env : BrowserEnv) (content filename mimeType : String) :
    ((downloadFileWithFallback env content filename mimeType).attempts.head? =
        some DlStep.blobAnchor) ∧
    (DlStep.dataUri ∈ (downloadFileWithFallback env content filename mimeType).attempts ↔
      stepFails env .blobAnchor = true) ∧
    (DlStep.newWindow ∈ (downloadFileWithFallback env content filename mimeType).attempts ↔
      stepFails env .blobAnchor = true ∧ stepFails env .dataUri = true) ∧
    (DlStep.clipboard ∈ (downloadFileWithFallback env content filename mimeType).attempts ↔
      stepFails env .blobAnchor = true ∧ stepFails env .dataUri = true ∧
        stepFails env .newWindow = true) ∧
    (stepFails env .blobAnchor = true → stepFails env .dataUri = true →
      stepFails env .newWindow = true → stepFails env .clipboard = true →
      (downloadFileWithFallback env content filename mimeType).outcome = DlOutcome.failedAll ∧
        (downloadFileWithFallback env content filename mimeType).dumpedContent = some content ∧
        (downloadFileWithFallback env content filename mimeType).finalAlert = true) ∧
    ((downloadFileWithFallback env content filename mimeType).outcome ≠ DlOutcome.failedAll →
      (downloadFileWithFallback env content filename mimeType).finalAlert = false ∧
        (downloadFileWithFallback env content filename mimeType).dumpedContent = none) ∧
    ((downloadFileWithFallback env content filename mimeType).outcome =
        DlOutcome.copiedToClipboard →
      (downloadFileWithFallback env content filename mimeType).pasteInstruction = true) := by
  rcases env with ⟨b1, b2, b3, b4, b5, b6⟩
  cases b1 <;> cases b2 <;> cases b3 <;> cases b4 <;> cases b5 <;> cases b6 <;>
    simp [downloadFileWithFallback, stepFails]

/-- C6 witness: in an environment where every mechanism fails, the
chain ends in total failure with the final alert and the console dump
of the content. -/
theorem c6_witness :
    (downloadFileWithFallback allFailEnv "log-content" "f.json" "application/json").outcome =
        DlOutcome.failedAll ∧
    (downloadFileWithFallback allFailEnv "log-content" "f.json" "application/json").dumpedContent =
        some "log-content" ∧
    (downloadFileWithFallback allFailEnv "log-content" "f.json" "application/json").finalAlert =
        true := by
  have h := c6_fallback_chain allFailEnv "log-content" "f.json" "application/json"
  exact h.2.2.2.2.1 rfl rfl rfl rfl

/-! ## Claim C7: bulk delivery confirmation and staggering -/

/-- Element characterization of the scheduling loop: the item at index
`i` is opened after `(base + i) * 100` milliseconds. -/
theorem scheduleOpens_getElem (items : List DownloadItem) :
    ∀ (base i : Nat), (scheduleOpens base items)[i]? =
      items[i]?.map (fun it => ((base + i) * 100, it.url)) := by
  induction items with
  | nil => intro base i; simp [scheduleOpens]
  | cons it rest ih =>
    intro base i
    cases i with
    | zero => simp [scheduleOpens]
    | succ j =>
      have harith : base + 1 + j = base + (j + 1) := by omega
      simp only [scheduleOpens, List.getElem?_cons_succ]
      rw [ih (base + 1) j, harith]

/-- C7: the confirmation dialog appears exactly when more than 10 items
are listed; a declined confirmation schedules zero opens; otherwise
(and for nonempty lists) every item is scheduled, the `i`-th with a
delay of `i * 100` milliseconds, in index order. -/
theorem c7_bulk_confirmation (items : List DownloadItem) (confirmAnswer : Bool) :
    ((downloadAllFiles items confirmAnswer).1 = true ↔ 10 < items.length) ∧
    (10 < items.length → confirmAnswer = false →
      (downloadAllFiles items confirmAnswer).2 = []) ∧
    (items ≠ [] → (items.length ≤ 10 ∨ confirmAnswer = true) →
      (downloadAllFiles items confirmAnswer).2 = scheduleOpens 0 items) ∧
    (∀ i : Nat, (scheduleOpens 0 items)[i]? =
      items[i]?.map (fun it => (i * 100, it.url))) := by
  refine ⟨?_, ?_, ?_, ?_⟩
  · unfold downloadAllFiles
    by_cases h0 : items.length = 0
    · simp [h0]
    · by_cases h10 : items.length > 10
      · cases confirmAnswer <;> simp [h0, h10]
      · simp [h0, h10]
  · intro h10 hc
    subst hc
    unfold downloadAllFiles
    have h0 : ¬ (items.length = 0) := by omega
    simp [h0, h10]
  · intro hne hcase
    unfold downloadAllFiles
    by_cases h0 : items.length = 0
    · exact absurd (List.length_eq_zero.mp h0) hne
    · rcases hcase with hle | hc
      · have h10 : ¬ (items.length > 10) := by omega
        simp [h0, h10]
      · subst hc
        by_cases h10 : items.length > 10 <;> simp [h0, h10]
  · intro i
    simpa using scheduleOpens_getElem items 0 i

/-- C7 witness: with 15 listed items the confirmation is requested;
declining opens nothing; accepting schedules all 15, the item at index
3 after 300 milliseconds. -/
theorem c7_witness :
    (downloadAllFiles (List.replicate 15 sampleItem) false).1 = true ∧
    (downloadAllFiles (List.replicate 15 sampleItem) false).2 = [] ∧
    (downloadAllFiles (List.replicate 15 sampleItem) true).2 =
        scheduleOpens 0 (List.replicate 15 sampleItem) ∧
    (scheduleOpens 0 (List.replicate 15 sampleItem))[3]? = some (300, "https://x/y.zip") := by
  have h1 := c7_bulk_confirmation (List.replicate 15 sampleItem) false
  have h2 := c7_bulk_confirmation (List.replicate 15 sampleItem) true
  refine ⟨h1.1.mpr (by simp), h1.2.1 (by simp) rfl,
    h2.2.2.1 (by simp) (Or.inr rfl), ?_⟩
  rw [h2.2.2.2 3]
  rfl

/-! ## Claim C9: base64 round-trip -/

/-- Decoding an encoded sextet recovers the sextet. -/
theorem b64Idx_enc_fin : ∀ n : Fin 64, b64Idx (b64Enc n.val) = some n.val := by decide

/-- `b64Idx_enc_fin` for naturals below 64. -/
theorem b64Idx_enc (n : Nat) (h : n < 64) : b64Idx (b64Enc n) = some n :=
  b64Idx_enc_fin ⟨n, h⟩

/-- Alphabet characters are never the padding character. -/
theorem b64Enc_ne_pad_fin : ∀ n : Fin 64, b64Enc n.val ≠ '=' := by decide

/-- `b64Enc_ne_pad_fin` for naturals below 64. -/
theorem b64Enc_ne_pad (n : Nat) (h : n < 64) : b64Enc n ≠ '=' :=
  b64Enc_ne_pad_fin ⟨n, h⟩

/-- Decoding an encoded byte sequence recovers the bytes. -/
theorem atob_btoa (bs : List Nat) (h : ∀ x ∈ bs, x < 256) : atob (btoa bs) = some bs := by
  induction bs using btoa.induct with
  | case1 => rfl
  | case2 x =>
    have hx : x < 256 := h x (by simp)
    have h1 : b64Idx (b64Enc (x / 4)) = some (x / 4) := b64Idx_enc _ (by omega)
    have h2 : b64Idx (b64Enc (x % 4 * 16)) = some (x % 4 * 16) := b64Idx_enc _ (by omega)
    have hb : x / 4 * 4 + x % 4 * 16 / 16 = x := by omega
    simp [btoa, atob, h1, h2, hb]
    omega
  | case3 x y =>
    have hx : x < 256 := h x (by simp)
    have hy : y < 256 := h y (by simp)
    have h1 : b64Idx (b64Enc (x / 4)) = some (x / 4) := b64Idx_enc _ (by omega)
    have h2 : b64Idx (b64Enc (x % 4 * 16 + y / 16)) = some (x % 4 * 16 + y / 16) :=
      b64Idx_enc _ (by omega)
    have h3 : b64Idx (b64Enc (y % 16 * 4)) = some (y % 16 * 4) := b64Idx_enc _ (by omega)
    have hc : b64Enc (y % 16 * 4) ≠ '=' := b64Enc_ne_pad _ (by omega)
    have hb1 : x / 4 * 4 + (x % 4 * 16 + y / 16) / 16 = x := by omega
    have hb2 : (x % 4 * 16 + y / 16) % 16 * 16 + y % 16 * 4 / 4 = y := by omega
    simp [btoa, atob, h1, h2, h3, hc, hb1, hb2]
    omega
  | case4 x y z rest ih =>
    have hx : x < 256 := h x (by simp)
    have hy : y < 256 := h y (by simp)
    have hz : z < 256 := h z (by simp)
    have hrest : ∀ a ∈ rest, a < 256 := fun a ha => h a (by simp [ha])
    have h1 : b64Idx (b64Enc (x / 4)) = some (x / 4) := b64Idx_enc _ (by omega)
    have h2 : b64Idx (b64Enc (x % 4 * 16 + y / 16)) = some (x % 4 * 16 + y / 16) :=
      b64Idx_enc _ (by omega)
    have h3 : b64Idx (b64Enc (y % 16 * 4 + z / 64)) = some (y % 16 * 4 + z / 64) :=
      b64Idx_enc _ (by omega)
    have h4 : b64Idx (b64Enc (z % 64)) = some (z % 64) := b64Idx_enc _ (by omega)
    have hc : b64Enc (y % 16 * 4 + z / 64) ≠ '=' := b64Enc_ne_pad _ (by omega)
    have hd : b64Enc (z % 64) ≠ '=' := b64Enc_ne_pad _ (by omega)
    have hb1 : x / 4 * 4 + (x % 4 * 16 + y / 16) / 16 = x := by omega
    have hb2 : (x % 4 * 16 + y / 16) % 16 * 16 + (y % 16 * 4 + z / 64) / 4 = y := by omega
    have hb3 : (y % 16 * 4 + z / 64) % 4 * 64 + z % 64 = z := by omega
    simp [btoa, atob, h1, h2, h3, h4, hc, hd, hb1, hb2, hb3, ih hrest]

/-- C9: decoding a canonical base64 payload to raw bytes as
`triggerFileDownload` does (browser `atob` plus per-index byte
extraction) and re-encoding the bytes with `btoa` reproduces the
original encoded string. -/
theorem c9_base64_roundtrip (s : List Char) (h : IsCanonicalB64 s) :
    Option.map btoa (atob s) = some s := by
  obtain ⟨bs, hbs, rfl⟩ := h
  rw [atob_btoa bs hbs]
  rfl

/-- C9 witness: the canonical payload `TWFu` decodes to the bytes of
`Man` and re-encodes to itself. -/
theorem c9_witness : Option.map btoa (atob "TWFu".toList) = some "TWFu".toList :=
  c9_base64_roundtrip "TWFu".toList ⟨[77, 97, 110], by decide, rfl⟩
